import Mathlib

/-!
Shallow embedding of `paintdotnet_selection_to_clipboard.py` (version 1.2.0).

Python strings are modelled as Lean `String` / `List Char` (ASCII fragment),
Python `None` as `Option.none`, and a raised exception as `Except.error`.
The accessibility layer and the system clipboard are modelled as explicit
inputs to each poll cycle of the sync loop, so that the loop body becomes a
pure state-transition function.
-/

/-- Exception classes that can cross the modelled boundaries.  All four
constructors model subclasses of Python's `Exception`; `timeoutErr` is
`pywinauto.timings.TimeoutError`, which derives from `RuntimeError`. -/
inductive PyExc where
  | timeoutErr
  | runtimeErr
  | lookupErr
  | otherExc (msg : String)
deriving DecidableEq, Repr

/-- Log events emitted by `get_selection_info` (source lines 115 and 120):
`debugLog` models `logger.debug(..., exc_info=True)`, `errorLog` models
`logger.exception(...)`. -/
inductive LogEvent where
  | debugLog (msg : String)
  | errorLog (msg : String)
deriving DecidableEq, Repr

/-- Does the list `n` occur as a leading segment of `h`? (helper for the
Python substring test `n in h`). -/
def startsWithChars : List Char → List Char → Bool
  | [], _ => true
  | _ :: _, [] => false
  | a :: as, b :: bs => a = b && startsWithChars as bs

/-- Python's substring test `needle in hay` on character lists. -/
def containsSub (needle : List Char) : List Char → Bool
  | [] => startsWithChars needle []
  | c :: rest => startsWithChars needle (c :: rest) || containsSub needle rest

/-- Python's `str.split(",")` on character lists: groups separated by `,`,
empty groups preserved, `"".split(",") == [""]`. -/
def splitOnComma : List Char → List (List Char)
  | [] => [[]]
  | c :: cs =>
    if c = ',' then [] :: splitOnComma cs
    else
      match splitOnComma cs with
      | [] => [[c]]
      | g :: gs => (c :: g) :: gs

/-- The ASCII whitespace characters stripped by Python's `int(str)`
(space, tab, newline, carriage return, vertical tab, form feed). -/
def isPyWs (c : Char) : Bool :=
  c = ' ' || c = Char.ofNat 9 || c = Char.ofNat 10 || c = Char.ofNat 13 ||
    c = Char.ofNat 11 || c = Char.ofNat 12

/-- Strip leading and trailing whitespace (the implicit strip in `int(str)`). -/
def stripChars (l : List Char) : List Char :=
  ((l.dropWhile isPyWs).reverse.dropWhile isPyWs).reverse

/-- Accumulating decimal scanner for `int(str)`: consumes ASCII digits, allowing
a single underscore between two digits (Python 3.6+ digit grouping); any other
character aborts the parse. -/
def pyDigitsAux : Nat → List Char → Option Nat
  | acc, [] => some acc
  | acc, c :: cs =>
    if c.isDigit then pyDigitsAux (10 * acc + (c.toNat - 48)) cs
    else if c = '_' then
      match cs with
      | [] => none
      | c2 :: cs2 =>
        if c2.isDigit then pyDigitsAux (10 * acc + (c2.toNat - 48)) cs2 else none
    else none

/-- Unsigned decimal digit-string parse: at least one digit, digits first. -/
def pyNatOfChars : List Char → Option Nat
  | [] => none
  | c :: cs => if c.isDigit then pyDigitsAux (c.toNat - 48) cs else none

/-- Signed integer parse after stripping: optional `+` or `-`, then digits. -/
def pyIntOfChars : List Char → Option Int
  | [] => none
  | c :: cs =>
    if c = '+' then (pyNatOfChars cs).map (fun n => (n : Int))
    else if c = '-' then (pyNatOfChars cs).map (fun n => -(n : Int))
    else (pyNatOfChars (c :: cs)).map (fun n => (n : Int))

/-- Python's `int(str)` on the ASCII fragment: `some` is a successful parse,
`none` models a raised `ValueError`. -/
def pyInt (l : List Char) : Option Int :=
  pyIntOfChars (stripChars l)

/-- Little-endian decimal digits of `n`, with explicit fuel so that the
definition is structurally recursive (hence kernel-reducible). -/
def natDigitsRevFuel : Nat → Nat → List Char
  | 0, _ => []
  | fuel + 1, n =>
    if n = 0 then [] else Char.ofNat (48 + n % 10) :: natDigitsRevFuel fuel (n / 10)

/-- Little-endian decimal digits of `n` (empty exactly for `n = 0`). -/
def natDigitsRev (n : Nat) : List Char :=
  natDigitsRevFuel n n

/-- Canonical decimal rendering of a natural number, as characters
(Python's `str`/`repr` of a non-negative `int`). -/
def natReprChars (n : Nat) : List Char :=
  if n = 0 then ['0'] else (natDigitsRev n).reverse

/-- Canonical decimal rendering of an integer, as characters
(the form `json.dumps` emits for an `int` value). -/
def intReprChars (i : Int) : List Char :=
  if i < 0 then '-' :: natReprChars i.natAbs else natReprChars i.toNat

/-- The exact character sequence `json.dumps` produces at source line 131 for
the dict literal of line 130: insertion order `Height, Width, X, Y`, default
separators `", "` and `": "`.  The arguments are the parsed first, second,
third and fourth comma-fields (`x, y, w, h` at line 129). -/
def jsonDocChars (x y w h : Int) : List Char :=
  ("\x7b\"children\": \x7b\"Height\": \x7b\"value\": ").data ++ intReprChars h ++
    ("\x7d, \"Width\": \x7b\"value\": ").data ++ intReprChars w ++
    ("\x7d, \"X\": \x7b\"value\": ").data ++ intReprChars x ++
    ("\x7d, \"Y\": \x7b\"value\": ").data ++ intReprChars y ++
    ("\x7d\x7d\x7d").data

/-- Source lines 128-131, `get_coordinates_as_json`: split the input on `,`
into exactly four fields (`x, y, w, h = coordiantes.split(",")`), parse each
with `int`, and serialize the nested dict with `json.dumps`.  `none` models
the `ValueError` raised on a wrong field count or an unparseable field. -/
def get_coordinates_as_json (coordiantes : String) : Option String :=
  match splitOnComma coordiantes.data with
  | [x, y, w, h] =>
    match pyInt x, pyInt y, pyInt w, pyInt h with
    | some xi, some yi, some wi, some hi => some ⟨jsonDocChars xi yi wi hi⟩
    | _, _, _, _ => none
  | _ => none

/-- Python's `", ".join(groups)` at source line 108. -/
def joinGroups (groups : List String) : String :=
  String.intercalate ", " groups

/-- The HumanEncoding of a SelectionTuple as characters: decimal fields joined
by a comma and a space (spec section 3; the reader produces it via
`", ".join(match.groups())`). -/
def humanEncodeChars (x y w h : Nat) : List Char :=
  natReprChars x ++ ',' :: ' ' :: natReprChars y ++ ',' :: ' ' :: natReprChars w ++
    ',' :: ' ' :: natReprChars h

/-- The HumanEncoding of a SelectionTuple as a string. -/
def humanEncode (x y w h : Nat) : String :=
  ⟨humanEncodeChars x y w h⟩

/-- The fixed marker phrase of source line 103. -/
def markerChars : List Char :=
  ("Selection top left").data

/-- The scan loop of source lines 101-111 over the status bar's text
sub-elements.  Each list entry models one `window_text()` call (which may
itself raise); the compiled regex is abstracted as its `search` function
`psearch`, returning the groups of the first match, if any.  A marker-free
text is skipped; a marker-bearing text is searched, a match returns the
joined groups, a failed search moves on to the next element. -/
def scanTexts (psearch : String → Option (List String)) :
    List (Except PyExc String) → Except PyExc (Option String)
  | [] => .ok none
  | .error e :: _ => .error e
  | .ok txt :: rest =>
    if containsSub markerChars txt.data = false then scanTexts psearch rest
    else
      match psearch txt with
      | some gs => .ok (some (joinGroups gs))
      | none => scanTexts psearch rest

/-- One invocation's worth of accessibility-layer behaviour, as seen by
`get_selection_info`: the outcome of the `wait_until_passes` call for the
status bar (lines 88-95), and the outcome of enumerating the text
sub-elements and reading each one's text (lines 101-102). -/
structure SelReadEnv where
  statusBar : Except PyExc Unit
  texts : Except PyExc (List (Except PyExc String))

/-- The body of the outer `try` of `get_selection_info` (lines 85-111): the
inner `except TimeoutError` (lines 96-98) turns a timeout of the wait into
`None`; every other exception propagates to the outer handlers. -/
def selBody (psearch : String → Option (List String)) (env : SelReadEnv) :
    Except PyExc (Option String) :=
  match env.statusBar with
  | .error e => if e = PyExc.timeoutErr then .ok none else .error e
  | .ok _ =>
    match env.texts with
    | .error e => .error e
    | .ok ts => scanTexts psearch ts

/-- Membership in the `except (RuntimeError, LookupError)` clause of source
line 113 (`timeoutErr` qualifies because pywinauto's `TimeoutError` derives
from `RuntimeError`). -/
def isRuntimeOrLookup : PyExc → Bool
  | .timeoutErr => true
  | .runtimeErr => true
  | .lookupErr => true
  | .otherExc _ => false

/-- Membership in the `except Exception` clause of source line 118: every
modelled exception class derives from `Exception`. -/
def isExcSubclass : PyExc → Bool :=
  fun _ => true

/-- Source lines 82-121, `get_selection_info`: run the body, then apply the
two outer exception handlers.  `.error` in the result would mean an exception
escaping the function. -/
def get_selection_info (psearch : String → Option (List String)) (env : SelReadEnv) :
    Except PyExc (Option String × List LogEvent) :=
  match selBody psearch env with
  | .ok r => .ok (r, [])
  | .error e =>
    if isRuntimeOrLookup e then
      .ok (none, [LogEvent.debugLog "UI element unavailable while reading selection info"])
    else if isExcSubclass e then
      .ok (none, [LogEvent.errorLog "Unexpected failure in get_selection_info"])
    else .error e

/-- The loop's session memory (source lines 138-139):
`last_coordinates_txt` is the spec's `lastHuman`, `last_coordinates_json`
the spec's `lastStructured`. -/
structure SyncState where
  last_coordinates_txt : Option String
  last_coordinates_json : Option String
deriving DecidableEq, Repr

/-- Observable outcome of one poll cycle: the successor state, the final
clipboard text, the values passed to `pyperclip.copy`, and the
`logger.info` lines emitted. -/
structure CycleResult where
  state : SyncState
  clipboard : String
  writes : List String
  logs : List String
deriving DecidableEq, Repr

/-- A cycle that changes nothing (only the role-dependent sleep happens). -/
def skipCycle (s : SyncState) (clip : String) : CycleResult :=
  ⟨s, clip, [], []⟩

/-- Source lines 150-160, the `"paintdotnet.exe"` arm: `sel` is what
`get_selection_info` returned this cycle.  `if selection_data:` is Python
truthiness, so both `None` and the empty string skip.  The clipboard is read
(line 153) but never consulted.  On a fresh value the HumanEncoding is
copied and logged and both memory fields are updated; a `ValueError` from
`get_coordinates_as_json` (line 158) would propagate and kill the loop. -/
def producerCycle (s : SyncState) (clip : String) (sel : Option String) :
    Except PyExc CycleResult :=
  match sel with
  | some sd =>
    if sd ≠ "" then
      if s.last_coordinates_txt ≠ some sd then
        match get_coordinates_as_json sd with
        | some js =>
          .ok ⟨⟨some sd, some js⟩, sd, [sd], ["Copied to clipboard: " ++ sd]⟩
        | none => .error (PyExc.otherExc "ValueError in get_coordinates_as_json")
      else .ok (skipCycle s clip)
    else .ok (skipCycle s clip)
  | none => .ok (skipCycle s clip)

/-- Source lines 161-169, the `"PRS.exe"` arm: `if last_coordinates_json:`
is truthiness, then the stored JSON is republished exactly when the clipboard
differs from it and still equals `last_coordinates_txt` (a `str == None`
comparison is `False`, hence the `Option`-level equality). -/
def consumerCycle (s : SyncState) (clip : String) : CycleResult :=
  match s.last_coordinates_json with
  | some js =>
    if js ≠ "" then
      if clip ≠ js then
        if some clip = s.last_coordinates_txt then
          ⟨s, js, [js], ["Copied to clipboard: " ++ js]⟩
        else skipCycle s clip
      else skipCycle s clip
    else skipCycle s clip
  | none => skipCycle s clip

/-- Source lines 170-178, the wildcard arm: symmetric to `consumerCycle`
with the two memory fields swapped. -/
def wildcardCycle (s : SyncState) (clip : String) : CycleResult :=
  match s.last_coordinates_txt with
  | some txt =>
    if txt ≠ "" then
      if clip ≠ txt then
        if some clip = s.last_coordinates_json then
          ⟨s, txt, [txt], ["Copied to clipboard: " ++ txt]⟩
        else skipCycle s clip
      else skipCycle s clip
    else skipCycle s clip
  | none => skipCycle s clip

/-- One iteration of the `while True:` loop of source lines 140-178.
`active` is the `exe_name` of `get_active_window()`'s result (or `none`),
`clip` the clipboard text `get_current_clipboard_text()` would return, and
`sel` the value `get_selection_info` would return if called. -/
def loopStep (s : SyncState) (clip : String) (active : Option String)
    (sel : Option String) : Except PyExc CycleResult :=
  match active with
  | none => .ok (skipCycle s clip)
  | some exe =>
    if exe = "paintdotnet.exe" then producerCycle s clip sel
    else if exe = "PRS.exe" then .ok (consumerCycle s clip)
    else .ok (wildcardCycle s clip)

/-- The state installed at source lines 138-139 before the loop starts. -/
def initState : SyncState :=
  ⟨none, none⟩

/-- States the loop can be in at the top of an iteration: the initial state,
and any successor of a reachable state under a non-crashing cycle (the
clipboard, focus, and selection inputs are arbitrary each cycle, modelling
external actors). -/
inductive Reachable : SyncState → Prop where
  | init : Reachable initState
  | step (s : SyncState) (clip : String) (active : Option String) (sel : Option String)
      (out : CycleResult) (hs : Reachable s)
      (h : loopStep s clip active sel = .ok out) : Reachable out.state

/-- The clipboard-independent projection of a cycle's outcome: successor
state, values written, lines logged. -/
def projOut (o : CycleResult) : SyncState × List String × List String :=
  (o.state, o.writes, o.logs)


lemma charOfNat_digit_toNat (r : Nat) (h : r < 10) :
    (Char.ofNat (48 + r)).toNat = 48 + r := by
  interval_cases r <;> decide

lemma charOfNat_digit_isDigit (r : Nat) (h : r < 10) :
    (Char.ofNat (48 + r)).isDigit = true := by
  interval_cases r <;> decide

lemma ws_not_digit (c : Char) (h : isPyWs c = true) : c.isDigit = false := by
  simp only [isPyWs, Bool.or_eq_true, decide_eq_true_eq] at h
  rcases h with ((((h | h) | h) | h) | h) | h <;> subst h <;> decide

lemma digit_not_ws (c : Char) (h : c.isDigit = true) : isPyWs c = false := by
  cases hw : isPyWs c
  · rfl
  · rw [ws_not_digit c hw] at h
    exact Bool.noConfusion h

lemma digit_ne_comma (c : Char) (h : c.isDigit = true) : c ≠ ',' := by
  intro he; subst he; exact absurd h (by decide)

lemma digit_ne_plus (c : Char) (h : c.isDigit = true) : c ≠ '+' := by
  intro he; subst he; exact absurd h (by decide)

lemma digit_ne_minus (c : Char) (h : c.isDigit = true) : c ≠ '-' := by
  intro he; subst he; exact absurd h (by decide)

lemma pyDigitsAux_digits (ds : List Char) (hd : ∀ c ∈ ds, c.isDigit = true) :
    ∀ acc : Nat, pyDigitsAux acc ds =
      some (ds.foldl (fun a c => 10 * a + (c.toNat - 48)) acc) := by
  induction ds with
  | nil => intro acc; rfl
  | cons c cs ih =>
    intro acc
    have hc : c.isDigit = true := hd c (by simp)
    rw [pyDigitsAux.eq_def]
    simp only [hc, if_true, List.foldl_cons]
    exact ih (fun x hx => hd x (by simp [hx])) _

lemma pyNatOfChars_digits (ds : List Char) (hne : ds ≠ [])
    (hd : ∀ c ∈ ds, c.isDigit = true) :
    pyNatOfChars ds = some (ds.foldl (fun a c => 10 * a + (c.toNat - 48)) 0) := by
  cases ds with
  | nil => exact absurd rfl hne
  | cons c cs =>
    have hc : c.isDigit = true := hd c (by simp)
    rw [pyNatOfChars.eq_def]
    simp only [hc, if_true, List.foldl_cons]
    rw [pyDigitsAux_digits cs (fun x hx => hd x (by simp [hx]))]
    norm_num

lemma natDigitsRevFuel_digits (fuel : Nat) :
    ∀ n c, c ∈ natDigitsRevFuel fuel n → c.isDigit = true := by
  induction fuel with
  | zero => intro n c hc; simp [natDigitsRevFuel] at hc
  | succ f ih =>
    intro n c hc
    by_cases h : n = 0
    · rw [natDigitsRevFuel.eq_def] at hc; simp [h] at hc
    · rw [natDigitsRevFuel.eq_def] at hc
      simp only [h, if_false, List.mem_cons, if_neg] at hc
      rcases hc with hc | hc
      · subst hc; exact charOfNat_digit_isDigit _ (Nat.mod_lt _ (by decide))
      · exact ih _ _ hc

lemma natDigitsRevFuel_foldr (fuel : Nat) :
    ∀ n, n ≤ fuel →
      (natDigitsRevFuel fuel n).foldr (fun c a => 10 * a + (c.toNat - 48)) 0 = n := by
  induction fuel with
  | zero => intro n hn; interval_cases n; rfl
  | succ f ih =>
    intro n hn
    by_cases h : n = 0
    · rw [natDigitsRevFuel.eq_def]; simp [h]
    · have hdiv : n / 10 ≤ f := by
        have hlt : n / 10 < n := Nat.div_lt_self (Nat.pos_of_ne_zero h) (by decide)
        omega
      rw [natDigitsRevFuel.eq_def]
      simp only [h, if_false, List.foldr_cons, if_neg]
      rw [ih _ hdiv, charOfNat_digit_toNat _ (Nat.mod_lt _ (by decide))]
      omega

lemma natReprChars_foldl (n : Nat) :
    (natReprChars n).foldl (fun a c => 10 * a + (c.toNat - 48)) 0 = n := by
  by_cases h : n = 0
  · subst h; decide
  · rw [natReprChars, if_neg h, natDigitsRev, List.foldl_reverse]
    exact natDigitsRevFuel_foldr n n le_rfl

lemma natReprChars_ne_nil (n : Nat) : natReprChars n ≠ [] := by
  by_cases h : n = 0
  · simp [natReprChars, h]
  · rw [natReprChars, if_neg h, natDigitsRev]
    cases n with
    | zero => exact absurd rfl h
    | succ m =>
      rw [natDigitsRevFuel.eq_def]
      simp

lemma natReprChars_digits (n : Nat) : ∀ c ∈ natReprChars n, c.isDigit = true := by
  by_cases h : n = 0
  · rw [natReprChars, if_pos h]; intro c hc; simp at hc; subst hc; decide
  · rw [natReprChars, if_neg h, natDigitsRev]
    intro c hc
    rw [List.mem_reverse] at hc
    exact natDigitsRevFuel_digits _ _ _ hc

lemma mk_data (l : List Char) : (String.mk l).data = l :=
  rfl

lemma dropWhile_not_ws (l : List Char) (hd : ∀ c ∈ l, c.isDigit = true) :
    l.dropWhile isPyWs = l := by
  cases l with
  | nil => rfl
  | cons c cs =>
    rw [List.dropWhile_cons, digit_not_ws c (hd c (by simp))]
    simp

lemma stripChars_digits (l : List Char) (hd : ∀ c ∈ l, c.isDigit = true) :
    stripChars l = l := by
  unfold stripChars
  rw [dropWhile_not_ws l hd,
    dropWhile_not_ws _ (fun c hc => hd c (List.mem_reverse.mp hc)),
    List.reverse_reverse]

lemma stripChars_space_digits (l : List Char) (hd : ∀ c ∈ l, c.isDigit = true) :
    stripChars (' ' :: l) = l := by
  unfold stripChars
  have hsp : isPyWs ' ' = true := by decide
  rw [List.dropWhile_cons, hsp]
  simp only [if_true]
  rw [dropWhile_not_ws l hd,
    dropWhile_not_ws _ (fun c hc => hd c (List.mem_reverse.mp hc)),
    List.reverse_reverse]

lemma pyIntOfChars_digits (l : List Char) (hne : l ≠ [])
    (hd : ∀ c ∈ l, c.isDigit = true) :
    pyIntOfChars l = (pyNatOfChars l).map (fun n => (n : Int)) := by
  cases l with
  | nil => exact absurd rfl hne
  | cons c cs =>
    have hc : c.isDigit = true := hd c (by simp)
    rw [pyIntOfChars.eq_def]
    simp [digit_ne_plus c hc, digit_ne_minus c hc]

lemma pyInt_natReprChars (n : Nat) : pyInt (natReprChars n) = some (n : Int) := by
  unfold pyInt
  rw [stripChars_digits _ (natReprChars_digits n),
    pyIntOfChars_digits _ (natReprChars_ne_nil n) (natReprChars_digits n),
    pyNatOfChars_digits _ (natReprChars_ne_nil n) (natReprChars_digits n),
    natReprChars_foldl n]
  rfl

lemma pyInt_space_natReprChars (n : Nat) :
    pyInt (' ' :: natReprChars n) = some (n : Int) := by
  unfold pyInt
  rw [stripChars_space_digits _ (natReprChars_digits n),
    pyIntOfChars_digits _ (natReprChars_ne_nil n) (natReprChars_digits n),
    pyNatOfChars_digits _ (natReprChars_ne_nil n) (natReprChars_digits n),
    natReprChars_foldl n]
  rfl

lemma splitOnComma_no_comma (xs : List Char) (h : ∀ c ∈ xs, c ≠ ',') :
    splitOnComma xs = [xs] := by
  induction xs with
  | nil => rfl
  | cons c cs ih =>
    rw [splitOnComma.eq_def]
    simp only [if_neg (h c (by simp))]
    rw [ih (fun x hx => h x (by simp [hx]))]

lemma splitOnComma_append (xs : List Char) (h : ∀ c ∈ xs, c ≠ ',') (ys : List Char) :
    splitOnComma (xs ++ ',' :: ys) = xs :: splitOnComma ys := by
  induction xs with
  | nil =>
    rw [List.nil_append, splitOnComma.eq_def]
    simp
  | cons c cs ih =>
    rw [List.cons_append, splitOnComma.eq_def]
    simp only [if_neg (h c (by simp))]
    rw [ih (fun x hx => h x (by simp [hx]))]

lemma natReprChars_no_comma (n : Nat) : ∀ c ∈ natReprChars n, c ≠ ',' :=
  fun c hc => digit_ne_comma c (natReprChars_digits n c hc)

lemma space_natReprChars_no_comma (n : Nat) :
    ∀ c ∈ ' ' :: natReprChars n, c ≠ ',' := by
  intro c hc
  rcases List.mem_cons.mp hc with hc | hc
  · subst hc; decide
  · exact natReprChars_no_comma n c hc

lemma split_humanEncode (x y w h : Nat) :
    splitOnComma (humanEncodeChars x y w h) =
      [natReprChars x, ' ' :: natReprChars y, ' ' :: natReprChars w,
        ' ' :: natReprChars h] := by
  unfold humanEncodeChars
  simp only [List.cons_append, List.append_assoc]
  rw [splitOnComma_append _ (natReprChars_no_comma x)]
  rw [show (' ' :: (natReprChars y ++ ',' :: ' ' :: (natReprChars w ++
        ',' :: ' ' :: natReprChars h))) =
      (' ' :: natReprChars y) ++ ',' :: (' ' :: (natReprChars w ++
        ',' :: ' ' :: natReprChars h)) by simp]
  rw [splitOnComma_append _ (space_natReprChars_no_comma y)]
  rw [show (' ' :: (natReprChars w ++ ',' :: ' ' :: natReprChars h)) =
      (' ' :: natReprChars w) ++ ',' :: (' ' :: natReprChars h) by simp]
  rw [splitOnComma_append _ (space_natReprChars_no_comma w)]
  rw [splitOnComma_no_comma _ (space_natReprChars_no_comma h)]

lemma humanEncode_data (x y w h : Nat) :
    (humanEncode x y w h).data = humanEncodeChars x y w h :=
  rfl

lemma intReprChars_natCast (n : Nat) : intReprChars (n : Int) = natReprChars n := by
  rw [intReprChars, if_neg (by omega)]
  simp

lemma translator_some_shape (v js : String)
    (h : get_coordinates_as_json v = some js) :
    ∃ a b c d xi yi wi hi, splitOnComma v.data = [a, b, c, d] ∧
      pyInt a = some xi ∧ pyInt b = some yi ∧ pyInt c = some wi ∧
      pyInt d = some hi ∧ js = ⟨jsonDocChars xi yi wi hi⟩ := by
  unfold get_coordinates_as_json at h
  rcases hsp : splitOnComma v.data with _ | ⟨a, _ | ⟨b, _ | ⟨c, _ | ⟨d, _ | ⟨e, t⟩⟩⟩⟩⟩ <;>
    rw [hsp] at h <;> try exact Option.noConfusion h
  dsimp only at h
  rcases ha : pyInt a with _ | xi <;> rw [ha] at h <;>
    rcases hb : pyInt b with _ | yi <;> rw [hb] at h <;>
    rcases hc : pyInt c with _ | wi <;> rw [hc] at h <;>
    rcases hd : pyInt d with _ | hi <;> rw [hd] at h <;>
    try exact Option.noConfusion h
  exact ⟨a, b, c, d, xi, yi, wi, hi, rfl, ha, hb, hc, hd, (Option.some.inj h).symm⟩

lemma jsonDocChars_ne_nil (x y w h : Int) : jsonDocChars x y w h ≠ [] := by
  unfold jsonDocChars
  have hlit : ("\x7b\"children\": \x7b\"Height\": \x7b\"value\": ").data ≠ [] := by decide
  exact List.append_ne_nil_of_left_ne_nil hlit _

lemma translator_ne_empty (v js : String)
    (h : get_coordinates_as_json v = some js) : js ≠ "" := by
  obtain ⟨a, b, c, d, xi, yi, wi, hi, -, -, -, -, -, hjs⟩ := translator_some_shape v js h
  intro he
  rw [he] at hjs
  exact jsonDocChars_ne_nil xi yi wi hi (congrArg String.data hjs).symm

lemma producerCycle_state (s : SyncState) (clip : String) (sel : Option String)
    (out : CycleResult) (h : producerCycle s clip sel = .ok out) :
    out.state = s ∨ ∃ sd js, sel = some sd ∧ sd ≠ "" ∧
      get_coordinates_as_json sd = some js ∧ out.state = ⟨some sd, some js⟩ := by
  unfold producerCycle at h
  rcases sel with _ | sd
  · left; rw [← Except.ok.inj h]; rfl
  · dsimp only at h
    by_cases hsd : sd = ""
    · rw [if_neg (by simp [hsd])] at h
      left; rw [← Except.ok.inj h]; rfl
    · rw [if_pos hsd] at h
      by_cases hlast : s.last_coordinates_txt ≠ some sd
      · rw [if_pos hlast] at h
        rcases hj : get_coordinates_as_json sd with _ | js <;> rw [hj] at h
        · exact Except.noConfusion h
        · right
          exact ⟨sd, js, rfl, hsd, hj, by rw [← Except.ok.inj h]⟩
      · rw [if_neg hlast] at h
        left; rw [← Except.ok.inj h]; rfl

lemma consumerCycle_state (s : SyncState) (clip : String) :
    (consumerCycle s clip).state = s := by
  unfold consumerCycle
  rcases s.last_coordinates_json with _ | js
  · rfl
  · dsimp only
    split_ifs <;> rfl

lemma wildcardCycle_state (s : SyncState) (clip : String) :
    (wildcardCycle s clip).state = s := by
  unfold wildcardCycle
  rcases s.last_coordinates_txt with _ | txt
  · rfl
  · dsimp only
    split_ifs <;> rfl

lemma loopStep_state (s : SyncState) (clip : String) (a : Option String)
    (sel : Option String) (out : CycleResult) (h : loopStep s clip a sel = .ok out) :
    out.state = s ∨ ∃ sd js, sel = some sd ∧ sd ≠ "" ∧
      get_coordinates_as_json sd = some js ∧ out.state = ⟨some sd, some js⟩ := by
  unfold loopStep at h
  rcases a with _ | exe
  · left; rw [← Except.ok.inj h]; rfl
  · dsimp only at h
    by_cases he1 : exe = "paintdotnet.exe"
    · rw [if_pos he1] at h
      exact producerCycle_state s clip sel out h
    · rw [if_neg he1] at h
      by_cases he2 : exe = "PRS.exe"
      · rw [if_pos he2] at h
        left; rw [← Except.ok.inj h]; exact consumerCycle_state s clip
      · rw [if_neg he2] at h
        left; rw [← Except.ok.inj h]; exact wildcardCycle_state s clip

lemma reach_facts (s : SyncState) (hs : Reachable s) :
    (∀ v, s.last_coordinates_txt = some v → v ≠ "") ∧
    (∀ js, s.last_coordinates_json = some js → js ≠ "") ∧
    s.last_coordinates_json = s.last_coordinates_txt.bind get_coordinates_as_json := by
  induction hs with
  | init =>
    refine ⟨?_, ?_, rfl⟩ <;> intro v hv <;> exact Option.noConfusion hv
  | step s clip a sel out hs h ih =>
    rcases loopStep_state s clip a sel out h with hst | ⟨sd, js, hsel, hsd, hjs, hst⟩
    · rw [hst]; exact ih
    · rw [hst]
      refine ⟨?_, ?_, ?_⟩
      · intro v hv
        cases Option.some.inj hv
        exact hsd
      · intro j hj
        cases Option.some.inj hj
        exact translator_ne_empty sd _ hjs
      · show some js = (some sd).bind get_coordinates_as_json
        simpa using hjs.symm

lemma consumerCycle_cases (s : SyncState) (clip : String) :
    (∃ js, s.last_coordinates_json = some js ∧ js ≠ "" ∧ clip ≠ js ∧
      some clip = s.last_coordinates_txt ∧
      consumerCycle s clip = ⟨s, js, [js], ["Copied to clipboard: " ++ js]⟩) ∨
    ((¬ ∃ js, s.last_coordinates_json = some js ∧ js ≠ "" ∧ clip ≠ js ∧
      some clip = s.last_coordinates_txt) ∧ consumerCycle s clip = skipCycle s clip) := by
  rcases hj : s.last_coordinates_json with _ | js
  · right
    refine ⟨?_, by unfold consumerCycle; rw [hj]⟩
    rintro ⟨js, hjs, -⟩
    exact Option.noConfusion hjs
  · have hcy : consumerCycle s clip =
        (if js ≠ "" then
          if clip ≠ js then
            if some clip = s.last_coordinates_txt then
              (⟨s, js, [js], ["Copied to clipboard: " ++ js]⟩ : CycleResult)
            else skipCycle s clip
          else skipCycle s clip
        else skipCycle s clip) := by
      unfold consumerCycle
      rw [hj]
    by_cases h1 : js = ""
    · right
      refine ⟨?_, by rw [hcy, if_neg (by simp [h1])]⟩
      rintro ⟨js', hjs', hne', -⟩
      cases Option.some.inj hjs'
      exact hne' h1
    · by_cases h2 : clip = js
      · right
        refine ⟨?_, by rw [hcy, if_pos h1, if_neg (by simp [h2])]⟩
        rintro ⟨js', hjs', -, hne2', -⟩
        cases Option.some.inj hjs'
        exact hne2' h2
      · by_cases h3 : some clip = s.last_coordinates_txt
        · left
          exact ⟨js, rfl, h1, h2, h3, by rw [hcy, if_pos h1, if_pos h2, if_pos h3]⟩
        · right
          refine ⟨?_, by rw [hcy, if_pos h1, if_pos h2, if_neg h3]⟩
          rintro ⟨js', hjs', -, -, heq'⟩
          cases Option.some.inj hjs'
          exact h3 heq'

lemma wildcardCycle_cases (s : SyncState) (clip : String) :
    (∃ txt, s.last_coordinates_txt = some txt ∧ txt ≠ "" ∧ clip ≠ txt ∧
      some clip = s.last_coordinates_json ∧
      wildcardCycle s clip = ⟨s, txt, [txt], ["Copied to clipboard: " ++ txt]⟩) ∨
    ((¬ ∃ txt, s.last_coordinates_txt = some txt ∧ txt ≠ "" ∧ clip ≠ txt ∧
      some clip = s.last_coordinates_json) ∧ wildcardCycle s clip = skipCycle s clip) := by
  rcases hj : s.last_coordinates_txt with _ | txt
  · right
    refine ⟨?_, by unfold wildcardCycle; rw [hj]⟩
    rintro ⟨txt, htxt, -⟩
    exact Option.noConfusion htxt
  · have hcy : wildcardCycle s clip =
        (if txt ≠ "" then
          if clip ≠ txt then
            if some clip = s.last_coordinates_json then
              (⟨s, txt, [txt], ["Copied to clipboard: " ++ txt]⟩ : CycleResult)
            else skipCycle s clip
          else skipCycle s clip
        else skipCycle s clip) := by
      unfold wildcardCycle
      rw [hj]
    by_cases h1 : txt = ""
    · right
      refine ⟨?_, by rw [hcy, if_neg (by simp [h1])]⟩
      rintro ⟨txt', htxt', hne', -⟩
      cases Option.some.inj htxt'
      exact hne' h1
    · by_cases h2 : clip = txt
      · right
        refine ⟨?_, by rw [hcy, if_pos h1, if_neg (by simp [h2])]⟩
        rintro ⟨txt', htxt', -, hne2', -⟩
        cases Option.some.inj htxt'
        exact hne2' h2
      · by_cases h3 : some clip = s.last_coordinates_json
        · left
          exact ⟨txt, rfl, h1, h2, h3, by rw [hcy, if_pos h1, if_pos h2, if_pos h3]⟩
        · right
          refine ⟨?_, by rw [hcy, if_pos h1, if_pos h2, if_neg h3]⟩
          rintro ⟨txt', htxt', -, -, heq'⟩
          cases Option.some.inj htxt'
          exact h3 heq'

lemma loopStep_prs (s : SyncState) (clip : String) (sel : Option String) :
    loopStep s clip (some "PRS.exe") sel = .ok (consumerCycle s clip) := by
  unfold loopStep
  dsimp only
  rw [if_neg (by decide), if_pos rfl]

lemma loopStep_other (s : SyncState) (clip : String) (exe : String) (sel : Option String)
    (h1 : exe ≠ "paintdotnet.exe") (h2 : exe ≠ "PRS.exe") :
    loopStep s clip (some exe) sel = .ok (wildcardCycle s clip) := by
  unfold loopStep
  dsimp only
  rw [if_neg h1, if_neg h2]

/-- Claim C1: in the DesignatedConsumer role (`"PRS.exe"` focused), the cycle
overwrites the clipboard with `lastStructured`'s serialization exactly when
`lastStructured` exists, the clipboard differs from that serialization, and
the clipboard equals `lastHuman`; in every other case the cycle changes
nothing (source lines 161-169). -/
theorem consumer_role_guard (s : SyncState) (clip : String) (sel : Option String)
    (hs : Reachable s) :
    (∃ js, s.last_coordinates_json = some js ∧ clip ≠ js ∧
      some clip = s.last_coordinates_txt ∧
      loopStep s clip (some "PRS.exe") sel =
        .ok ⟨s, js, [js], ["Copied to clipboard: " ++ js]⟩) ∨
    ((¬ ∃ js, s.last_coordinates_json = some js ∧ clip ≠ js ∧
      some clip = s.last_coordinates_txt) ∧
      loopStep s clip (some "PRS.exe") sel = .ok (skipCycle s clip)) := by
  rcases consumerCycle_cases s clip with ⟨js, hjs, hne0, hcne, heq, hcy⟩ | ⟨hn, hcy⟩
  · left
    exact ⟨js, hjs, hcne, heq, by rw [loopStep_prs, hcy]⟩
  · right
    refine ⟨?_, by rw [loopStep_prs, hcy]⟩
    rintro ⟨js, hjs, hcne, heq⟩
    exact hn ⟨js, hjs, (reach_facts s hs).2.1 js hjs, hcne, heq⟩

/-- Witness for `consumer_role_guard` at the initial state. -/
theorem consumer_role_guard_witness :
    Reachable initState ∧
    ((∃ js, initState.last_coordinates_json = some js ∧ "hello" ≠ js ∧
      some "hello" = initState.last_coordinates_txt ∧
      loopStep initState "hello" (some "PRS.exe") none =
        .ok ⟨initState, js, [js], ["Copied to clipboard: " ++ js]⟩) ∨
    ((¬ ∃ js, initState.last_coordinates_json = some js ∧ "hello" ≠ js ∧
      some "hello" = initState.last_coordinates_txt) ∧
      loopStep initState "hello" (some "PRS.exe") none =
        .ok (skipCycle initState "hello"))) :=
  ⟨Reachable.init, consumer_role_guard initState "hello" none Reachable.init⟩

/-- Claim C2: in the AnyOther role (focused, neither producer nor designated
consumer), the cycle overwrites the clipboard with `lastHuman` exactly when
`lastHuman` exists, the clipboard differs from it, and the clipboard equals
`lastStructured`'s serialization; otherwise the cycle changes nothing
(source lines 170-178). -/
theorem other_role_guard (s : SyncState) (clip : String) (exe : String)
    (sel : Option String) (hs : Reachable s)
    (h1 : exe ≠ "paintdotnet.exe") (h2 : exe ≠ "PRS.exe") :
    (∃ txt, s.last_coordinates_txt = some txt ∧ clip ≠ txt ∧
      some clip = s.last_coordinates_json ∧
      loopStep s clip (some exe) sel =
        .ok ⟨s, txt, [txt], ["Copied to clipboard: " ++ txt]⟩) ∨
    ((¬ ∃ txt, s.last_coordinates_txt = some txt ∧ clip ≠ txt ∧
      some clip = s.last_coordinates_json) ∧
      loopStep s clip (some exe) sel = .ok (skipCycle s clip)) := by
  rcases wildcardCycle_cases s clip with ⟨txt, htxt, hne0, hcne, heq, hcy⟩ | ⟨hn, hcy⟩
  · left
    exact ⟨txt, htxt, hcne, heq, by rw [loopStep_other s clip exe sel h1 h2, hcy]⟩
  · right
    refine ⟨?_, by rw [loopStep_other s clip exe sel h1 h2, hcy]⟩
    rintro ⟨txt, htxt, hcne, heq⟩
    exact hn ⟨txt, htxt, (reach_facts s hs).1 txt htxt, hcne, heq⟩

/-- Witness for `other_role_guard` at the initial state with `notepad.exe`. -/
theorem other_role_guard_witness :
    Reachable initState ∧
    ((∃ txt, initState.last_coordinates_txt = some txt ∧ "hello" ≠ txt ∧
      some "hello" = initState.last_coordinates_json ∧
      loopStep initState "hello" (some "notepad.exe") none =
        .ok ⟨initState, txt, [txt], ["Copied to clipboard: " ++ txt]⟩) ∨
    ((¬ ∃ txt, initState.last_coordinates_txt = some txt ∧ "hello" ≠ txt ∧
      some "hello" = initState.last_coordinates_json) ∧
      loopStep initState "hello" (some "notepad.exe") none =
        .ok (skipCycle initState "hello"))) :=
  ⟨Reachable.init,
    other_role_guard initState "hello" "notepad.exe" none Reachable.init
      (by decide) (by decide)⟩

/-- Claim C5: the SyncState invariant — in every reachable state,
`lastStructured` is exactly the Format Translator's image of `lastHuman`
(both `none` initially, both updated together at source lines 157-158 and
never separately). -/
theorem sync_state_invariant (s : SyncState) (hs : Reachable s) :
    s.last_coordinates_json = s.last_coordinates_txt.bind get_coordinates_as_json :=
  (reach_facts s hs).2.2

/-- Witness for `sync_state_invariant` at the initial state. -/
theorem sync_state_invariant_witness :
    Reachable initState ∧
    initState.last_coordinates_json =
      initState.last_coordinates_txt.bind get_coordinates_as_json :=
  ⟨Reachable.init, sync_state_invariant initState Reachable.init⟩

/-- Claim C4: in the Producer role a clipboard write and its log line happen
only when the freshly read selection differs from `lastHuman`; if the reader
returns the value already stored, the cycle is a no-op (state, clipboard and
logs unchanged; source lines 150-160). -/
theorem producer_write_only_on_change (s : SyncState) (clip v : String)
    (out : CycleResult)
    (h : loopStep s clip (some "paintdotnet.exe") (some v) = .ok out) :
    ((out.writes ≠ [] ∨ out.logs ≠ []) → s.last_coordinates_txt ≠ some v) ∧
    (s.last_coordinates_txt = some v → out = skipCycle s clip) := by
  have hp : producerCycle s clip (some v) = .ok out := by
    unfold loopStep at h
    dsimp only at h
    rw [if_pos rfl] at h
    exact h
  unfold producerCycle at hp
  dsimp only at hp
  by_cases hv : v = ""
  · rw [if_neg (by simp [hv])] at hp
    have hout : out = skipCycle s clip := (Except.ok.inj hp).symm
    constructor
    · intro hcon
      exfalso
      rcases hcon with hw | hl
      · rw [hout] at hw; exact hw rfl
      · rw [hout] at hl; exact hl rfl
    · intro _; exact hout
  · rw [if_pos hv] at hp
    by_cases hlast : s.last_coordinates_txt ≠ some v
    · exact ⟨fun _ => hlast, fun he => absurd he hlast⟩
    · rw [if_neg hlast] at hp
      have hout : out = skipCycle s clip := (Except.ok.inj hp).symm
      constructor
      · intro hcon
        exfalso
        rcases hcon with hw | hl
        · rw [hout] at hw; exact hw rfl
        · rw [hout] at hl; exact hl rfl
      · intro _; exact hout

/-- A concrete state for exercising `producer_write_only_on_change`. -/
def repeatReadState : SyncState :=
  ⟨some "1, 2, 3, 4", some ⟨jsonDocChars 1 2 3 4⟩⟩

/-- Witness for `producer_write_only_on_change`: reading the stored value a
second time is a no-op. -/
theorem producer_write_only_on_change_witness :
    loopStep repeatReadState "clip" (some "paintdotnet.exe") (some "1, 2, 3, 4") =
      .ok (skipCycle repeatReadState "clip") ∧
    ((((skipCycle repeatReadState "clip").writes ≠ [] ∨
      (skipCycle repeatReadState "clip").logs ≠ []) →
      repeatReadState.last_coordinates_txt ≠ some "1, 2, 3, 4") ∧
    (repeatReadState.last_coordinates_txt = some "1, 2, 3, 4" →
      skipCycle repeatReadState "clip" = skipCycle repeatReadState "clip")) :=
  ⟨rfl, producer_write_only_on_change repeatReadState "clip" "1, 2, 3, 4" _ rfl⟩

/-- Claim C9: in the Producer role the decision to write and the value
written are independent of the clipboard's current content (the clipboard is
read at source line 153 but never consulted), so a fresh differing selection
overwrites the clipboard even when it holds unrelated content. -/
theorem producer_clipboard_independent (s : SyncState) (c1 c2 : String)
    (sel : Option String) (v js : String) (hv : v ≠ "")
    (hnew : s.last_coordinates_txt ≠ some v)
    (hjs : get_coordinates_as_json v = some js) :
    (loopStep s c1 (some "paintdotnet.exe") sel).map projOut =
      (loopStep s c2 (some "paintdotnet.exe") sel).map projOut ∧
    loopStep s c1 (some "paintdotnet.exe") (some v) =
      .ok ⟨⟨some v, some js⟩, v, [v], ["Copied to clipboard: " ++ v]⟩ := by
  have hstep : ∀ c : String, loopStep s c (some "paintdotnet.exe") sel =
      producerCycle s c sel := by
    intro c
    unfold loopStep
    dsimp only
    rw [if_pos rfl]
  have hstepv : ∀ c : String, loopStep s c (some "paintdotnet.exe") (some v) =
      producerCycle s c (some v) := by
    intro c
    unfold loopStep
    dsimp only
    rw [if_pos rfl]
  constructor
  · rw [hstep c1, hstep c2]
    unfold producerCycle
    rcases sel with _ | sd
    · rfl
    · dsimp only
      split_ifs <;> rfl
  · rw [hstepv c1]
    unfold producerCycle
    dsimp only
    rw [if_pos hv, if_pos hnew, hjs]

/-- Witness for `producer_clipboard_independent` from the initial state. -/
theorem producer_clipboard_independent_witness :
    ("1, 2, 3, 4" : String) ≠ "" ∧
    initState.last_coordinates_txt ≠ some "1, 2, 3, 4" ∧
    get_coordinates_as_json "1, 2, 3, 4" = some ⟨jsonDocChars 1 2 3 4⟩ ∧
    ((loopStep initState "hello world" (some "paintdotnet.exe") none).map projOut =
      (loopStep initState "" (some "paintdotnet.exe") none).map projOut ∧
    loopStep initState "hello world" (some "paintdotnet.exe") (some "1, 2, 3, 4") =
      .ok ⟨⟨some "1, 2, 3, 4", some ⟨jsonDocChars 1 2 3 4⟩⟩, "1, 2, 3, 4",
        ["1, 2, 3, 4"], ["Copied to clipboard: 1, 2, 3, 4"]⟩) :=
  ⟨by decide, by decide, rfl,
    producer_clipboard_independent initState "hello world" "" none "1, 2, 3, 4" _
      (by decide) (by decide) rfl⟩

/-- Claim C7: Scenario A — from the empty state, with the producer focused
and the reader extracting groups `("10","20","300","150")` (joined at source
line 108), the clipboard becomes `"10, 20, 300, 150"`, `lastHuman` is updated
to it, and `lastStructured` becomes the serialized structured document with
`X=10, Y=20, Width=300, Height=150`, each as a `value` entry under the
top-level `children` key. -/
theorem scenario_a :
    loopStep initState "" (some "paintdotnet.exe")
        (some (joinGroups ["10", "20", "300", "150"])) =
      .ok ⟨⟨some "10, 20, 300, 150", some ⟨jsonDocChars 10 20 300 150⟩⟩,
        "10, 20, 300, 150", ["10, 20, 300, 150"],
        ["Copied to clipboard: 10, 20, 300, 150"]⟩ ∧
    (⟨jsonDocChars 10 20 300 150⟩ : String) =
      "\x7b\"children\": \x7b\"Height\": \x7b\"value\": 150\x7d, \"Width\": \x7b\"value\": 300\x7d, \"X\": \x7b\"value\": 10\x7d, \"Y\": \x7b\"value\": 20\x7d\x7d\x7d" :=
  ⟨rfl, rfl⟩

/-- Claim C3: round trip — for every SelectionTuple of four naturals, feeding
its comma-and-space joined HumanEncoding to the Format Translator yields the
structured document whose `X`, `Y`, `Width`, `Height` values are exactly the
four components, first field to `X`, second to `Y`, third to `Width`, fourth
to `Height`. -/
theorem human_to_structured_roundtrip (x y w h : Nat) :
    get_coordinates_as_json (humanEncode x y w h) =
      some ⟨jsonDocChars (x : Int) (y : Int) (w : Int) (h : Int)⟩ := by
  unfold get_coordinates_as_json
  rw [humanEncode_data, split_humanEncode]
  dsimp only
  rw [pyInt_natReprChars x, pyInt_space_natReprChars y, pyInt_space_natReprChars w,
    pyInt_space_natReprChars h]

/-- Claim C10: the Format Translator succeeds exactly when its input splits
on `,` into exactly four fields each parseable as a (whitespace-tolerant)
integer; on any other input it raises instead of returning a value. -/
theorem translator_success_domain (s : String) :
    (get_coordinates_as_json s).isSome = true ↔
      ∃ a b c d, splitOnComma s.data = [a, b, c, d] ∧
        (pyInt a).isSome = true ∧ (pyInt b).isSome = true ∧
        (pyInt c).isSome = true ∧ (pyInt d).isSome = true := by
  constructor
  · intro h
    rcases hjs : get_coordinates_as_json s with _ | js
    · rw [hjs] at h
      exact Bool.noConfusion h
    · obtain ⟨a, b, c, d, xi, yi, wi, hi, hsp, ha, hb, hc, hd, -⟩ :=
        translator_some_shape s js hjs
      exact ⟨a, b, c, d, hsp, by rw [ha]; rfl, by rw [hb]; rfl, by rw [hc]; rfl,
        by rw [hd]; rfl⟩
  · rintro ⟨a, b, c, d, hsp, ha, hb, hc, hd⟩
    rcases hxa : pyInt a with _ | xi
    · rw [hxa] at ha; exact Bool.noConfusion ha
    rcases hxb : pyInt b with _ | yi
    · rw [hxb] at hb; exact Bool.noConfusion hb
    rcases hxc : pyInt c with _ | wi
    · rw [hxc] at hc; exact Bool.noConfusion hc
    rcases hxd : pyInt d with _ | hi
    · rw [hxd] at hd; exact Bool.noConfusion hd
    unfold get_coordinates_as_json
    rw [hsp]
    dsimp only
    rw [hxa, hxb, hxc, hxd]
    rfl

lemma scanTexts_ok (psearch : String → Option (List String))
    (ts : List (Except PyExc String)) (r : Option String)
    (h : scanTexts psearch ts = .ok r) :
    r = none ∨ ∃ txt gs, psearch txt = some gs ∧ r = some (joinGroups gs) := by
  induction ts with
  | nil =>
    rw [scanTexts.eq_def] at h
    dsimp only at h
    left
    exact (Except.ok.inj h).symm
  | cons t rest ih =>
    rcases t with e | txt
    · exact Except.noConfusion h
    · rw [scanTexts.eq_def] at h
      dsimp only at h
      by_cases hm : containsSub markerChars txt.data = false
      · rw [if_pos hm] at h
        exact ih h
      · rw [if_neg hm] at h
        rcases hps : psearch txt with _ | gs <;> rw [hps] at h
        · exact ih h
        · right
          exact ⟨txt, gs, hps, (Except.ok.inj h).symm⟩

lemma selBody_ok (psearch : String → Option (List String)) (env : SelReadEnv)
    (r : Option String) (h : selBody psearch env = .ok r) :
    r = none ∨ ∃ txt gs, psearch txt = some gs ∧ r = some (joinGroups gs) := by
  unfold selBody at h
  rcases hsb : env.statusBar with e | u <;> rw [hsb] at h <;> dsimp only at h
  · by_cases he : e = PyExc.timeoutErr
    · rw [if_pos he] at h
      left
      exact (Except.ok.inj h).symm
    · rw [if_neg he] at h
      exact Except.noConfusion h
  · rcases htx : env.texts with e | ts <;> rw [htx] at h
    · exact Except.noConfusion h
    · exact scanTexts_ok psearch ts r h

/-- Claim C8: for every regex and every behaviour of the accessibility layer
(any exception at the wait, the enumeration, or any text read),
`get_selection_info` returns normally — never `.error` — and its value is
either an explicit absence or a joined match of the configured pattern; the
two outer handlers of source lines 113-121 cover every exception class. -/
theorem reader_never_raises (psearch : String → Option (List String))
    (env : SelReadEnv) :
    ∃ r logs, get_selection_info psearch env = .ok (r, logs) ∧
      (r = none ∨ ∃ txt gs, psearch txt = some gs ∧ r = some (joinGroups gs)) := by
  rcases hb : selBody psearch env with e | r
  · unfold get_selection_info
    rw [hb]
    dsimp only
    by_cases hro : isRuntimeOrLookup e = true
    · rw [if_pos hro]
      exact ⟨none, _, rfl, Or.inl rfl⟩
    · rw [if_neg hro, if_pos (show isExcSubclass e = true from rfl)]
      exact ⟨none, _, rfl, Or.inl rfl⟩
  · unfold get_selection_info
    rw [hb]
    dsimp only
    exact ⟨r, [], rfl, selBody_ok psearch env r hb⟩

/-- A configured pattern `(1) (2) (3) (4)`, abstracted as its `search`
function: it matches exactly the strings containing `"1 2 3 4"` and then
captures the four groups `"1","2","3","4"`. -/
def litPsearch : String → Option (List String) := fun t =>
  if containsSub ("1 2 3 4").data t.data then some ["1", "2", "3", "4"] else none

/-- An accessibility environment whose first text element bears the marker
but does not match the pattern, while the second marker-bearing element
does. -/
def twoTextsEnv : SelReadEnv :=
  ⟨.ok (), .ok [.ok "Selection top left: pending", .ok "Selection top left 1 2 3 4"]⟩

/-- Counterexample to claim C6 as stated: the first text element contains the
marker phrase and the configured pattern does not match it, yet the reader
does not return `none` — the scan continues and returns the match extracted
from the later element (the loop at source lines 101-108 has no early
`return None` on a pattern miss). -/
theorem reader_marker_stop_cex :
    containsSub markerChars ("Selection top left: pending").data = true ∧
    litPsearch "Selection top left: pending" = none ∧
    get_selection_info litPsearch twoTextsEnv = .ok (some "1, 2, 3, 4", []) :=
  ⟨by decide, by decide, rfl⟩

/-- Claim C6 amended: when a marker-bearing text element fails the configured
pattern, the scan skips that element and continues with the remaining
elements exactly as if it were absent (so a match may be returned from a
later element, and `none` results only when no element yields a match). -/
theorem reader_marker_skip (psearch : String → Option (List String))
    (t0 : String) (rest : List (Except PyExc String))
    (hm : containsSub markerChars t0.data = true) (hp : psearch t0 = none) :
    get_selection_info psearch ⟨.ok (), .ok (.ok t0 :: rest)⟩ =
      get_selection_info psearch ⟨.ok (), .ok rest⟩ := by
  have hscan : scanTexts psearch (.ok t0 :: rest) = scanTexts psearch rest := by
    rw [scanTexts.eq_def]
    dsimp only
    rw [if_neg (by simp [hm]), hp]
  unfold get_selection_info selBody
  dsimp only
  rw [hscan]

/-- Witness for `reader_marker_skip` on a one-element readout. -/
theorem reader_marker_skip_witness :
    containsSub markerChars ("Selection top left").data = true ∧
    (fun _ : String => (none : Option (List String))) "Selection top left" = none ∧
    get_selection_info (fun _ => none) ⟨.ok (), .ok [.ok "Selection top left"]⟩ =
      get_selection_info (fun _ => none) ⟨.ok (), .ok []⟩ :=
  ⟨by decide, rfl, reader_marker_skip (fun _ => none) "Selection top left" [] (by decide) rfl⟩
